import Mathlib

/-!
Shallow embedding of the ELF introspection layer of PRoot
(src/execve/elf.c): header opening and validation, program header
location, host-architecture classification, and extraction of the
RPATH and RUNPATH dynamic-linker search-path lists.

Operating-system calls (open, read, lseek) and allocations are modelled
by explicit oracles: a read either fails with an errno value or yields
the bytes actually available, a seek either fails with an errno value or
succeeds, and each allocation call either succeeds or fails, indexed by
a call counter.  Machine integers are modelled as Nat with explicit
reduction modulo 2^64 where the C code computes in uint64_t.
-/

/-- Modulus of the 64-bit unsigned arithmetic used by the C code. -/
def U64 : Nat := 2 ^ 64

/-- The address wildcard, written (uint64_t) -1 in the C code. -/
def wildcardAddr : Nat := U64 - 1

/-- Errno value ENOEXEC (exec format error), as on Linux. -/
def ENOEXEC : Nat := 8

/-- Errno value ENOMEM (out of memory), as on Linux. -/
def ENOMEM : Nat := 12

/-- Errno value ENOTSUP (operation not supported), as on Linux. -/
def ENOTSUP : Nat := 95

/-- The value the C library function read(2) returns on failure: -1.
The errno value describing the failure is stored separately, so a
caller that propagates the raw return value loses the errno value. -/
def cREAD_FAIL : Int := -1

/-- Segment type PT_LOAD, per the platform ELF specification. -/
def PT_LOAD : Nat := 1

/-- Segment type PT_DYNAMIC, per the platform ELF specification. -/
def PT_DYNAMIC : Nat := 2

/-- Dynamic tag DT_STRTAB, per the platform ELF specification. -/
def DT_STRTAB : Nat := 5

/-- Dynamic tag DT_RPATH, per the platform ELF specification. -/
def DT_RPATH : Nat := 15

/-- Dynamic tag DT_RUNPATH, per the platform ELF specification. -/
def DT_RUNPATH : Nat := 29

/-- A file as seen through a borrowed descriptor: its byte content plus
error injection for the read and seek system calls.  A read starting at
position p fails with errno e when readErr p = some e; a seek to
position p fails with errno e when seekErr p = some e. -/
structure File where
  content : List Nat
  readErr : Nat → Option Nat
  seekErr : Nat → Option Nat

/-- Model of read(2) on a regular file: at position pos, reading n
bytes yields the next min(n, remaining) bytes of the content, or fails
with an injected errno value. -/
def fread (f : File) (pos n : Nat) : Except Nat (List Nat) :=
  match f.readErr pos with
  | some e => .error e
  | none => .ok ((f.content.drop pos).take n)

/-- Model of strnlen(3) restricted to a window given as a list: the
number of bytes before the first NUL byte, bounded by the window
length. -/
def strnlenL : List Nat → Nat
  | [] => 0
  | b :: rest => if b = 0 then 0 else strnlenL rest + 1

/-- Outcome of the chunked read loop of add_xpaths. -/
inductive AxLoopOut where
  | err (code : Int) (ctr : Nat)
  | ok (text : List Nat) (ctr : Nat)
  | diverge
deriving DecidableEq

/-- The do-while loop of add_xpaths (src/execve/elf.c): grow the buffer
by 1024 bytes (one talloc_realloc call, indexed by the allocation
counter ctr), read up to 1024 bytes at the current file position, and
advance the logical length by strnlen over the newly grown 1024-byte
window.  Bytes of the window beyond what the read delivered are
uninitialized memory, modelled by the junk oracle indexed by absolute
buffer position.  The loop continues exactly while the logical length
equals the buffer size, that is while strnlen found no NUL in the
window.  A failed read makes the C code return the raw read(2) return
value -1 (return status), not -errno.  The fuel argument bounds the
number of iterations of the model; the C loop has no such bound. -/
def ax_loop (f : File) (allocOk : Nat → Bool) (junk : Nat → Nat) :
    Nat → Nat → Nat → Nat → List Nat → AxLoopOut
  | 0, _, _, _, _ => .diverge
  | fuel + 1, pos, ctr, length, data =>
    if allocOk ctr = false then .err (-(ENOMEM : Int)) (ctr + 1)
    else
      match fread f pos 1024 with
      | .error _ => .err cREAD_FAIL (ctr + 1)
      | .ok chunk =>
        let pad := (List.range (1024 - chunk.length)).map
          (fun j => junk (length + chunk.length + j))
        let window := chunk ++ pad
        let n := strnlenL window
        if n = 1024 then
          ax_loop f allocOk junk fuel (pos + chunk.length) (ctr + 1)
            (length + n) (data ++ window)
        else .ok ((data ++ window).take (length + n)) (ctr + 1)

/-- Status part of the result of add_xpaths. -/
inductive AXOut where
  | err (code : Int)
  | ok
  | diverge
deriving DecidableEq

/-- The concatenation tail of add_xpaths: merge the collected text into
the accumulator.  When the accumulator is empty (a NULL pointer in C),
a talloc_array call makes the text the entire content; otherwise a
talloc_realloc call grows the accumulator and a colon (byte 58) and the
text are appended with strcat.  On allocation failure the function
returns -ENOMEM; talloc_realloc leaves the original allocation intact
on failure, so the accumulator is unchanged. -/
def merge_xpaths (allocOk : Nat → Bool) (ctr : Nat)
    (xpaths : Option (List Nat)) (text : List Nat) :
    AXOut × Option (List Nat) × Nat :=
  match xpaths with
  | none =>
    if allocOk ctr then (.ok, some text, ctr + 1)
    else (.err (-(ENOMEM : Int)), none, ctr + 1)
  | some s =>
    if allocOk ctr then (.ok, some (s ++ 58 :: text), ctr + 1)
    else (.err (-(ENOMEM : Int)), some s, ctr + 1)

/-- add_xpaths (src/execve/elf.c): seek to offset (lseek failure is
returned as -errno), read the colon-separated path list through the
chunked loop, then merge it into the accumulator xpaths.  The result is
the status, the final accumulator, and the final allocation counter. -/
def add_xpaths (f : File) (allocOk : Nat → Bool) (junk : Nat → Nat)
    (fuel : Nat) (offset : Nat) (ctr : Nat)
    (xpaths : Option (List Nat)) : AXOut × Option (List Nat) × Nat :=
  match f.seekErr offset with
  | some e => (.err (-(e : Int)), xpaths, ctr)
  | none =>
    match ax_loop f allocOk junk fuel offset ctr 0 [] with
    | .diverge => (.diverge, xpaths, ctr)
    | .err c ctr2 => (.err c, xpaths, ctr2)
    | .ok text ctr2 => merge_xpaths allocOk ctr2 xpaths text

/-- Decoded class-generic view of an ELF header, as delivered by the
ELF_FIELD facade.  Modelled from the spec: the facade itself lives in
execve/elf.h, which is not part of the given sources; section 4.2
describes it as a pure mapping from the raw header to the named fields
phnum, phentsize, phoff, machine, and the class. -/
structure ElfHeaderF where
  eclass : Nat
  machine : Nat
  phoff : Nat
  phnum : Nat
  phentsize : Nat
deriving DecidableEq

/-- Decoded class-generic view of one program header entry, as
delivered by the PROGRAM_FIELD facade.  Modelled from the spec:
section 3 lists the fields type, vaddr, memsz, offset, filesz. -/
structure ProgramHeaderF where
  ptype : Nat
  vaddr : Nat
  memsz : Nat
  offset : Nat
  filesz : Nat
deriving DecidableEq

/-- Modelled from the spec: KNOWN_PHENTSIZE from execve/elf.h accepts
exactly the size of the per-class program header structure, 32 bytes
for the 32-bit class (ELFCLASS32 = 1) and 56 bytes for the 64-bit
class (ELFCLASS64 = 2). -/
def knownPhentsize (eclass size : Nat) : Bool :=
  (eclass == 1 && size == 32) || (eclass == 2 && size == 56)

/-- The address containment test of find_program_header: with
start = vaddr and the end computed as vaddr + memsz in uint64_t
arithmetic, an entry contains the address when start < end and
start <= address <= end. -/
def containsAddress (vaddr memsz address : Nat) : Bool :=
  let start := vaddr
  let stop := (vaddr + memsz) % U64
  decide (start < stop) && decide (address ≥ start) && decide (address ≤ stop)

/-- Outcome of reading one program header entry of phentsize bytes:
a full entry (decoded through the PROGRAM_FIELD facade), a short read,
or a failing read with its errno value. -/
inductive ReadPH where
  | ok (ph : ProgramHeaderF)
  | short
  | fail (errno : Nat)

/-- Result of find_program_header: an error code, not found (the C
return value 0), or found (the C return value 1) with the entry. -/
inductive FindResult where
  | err (code : Int)
  | notFound
  | found (ph : ProgramHeaderF)
deriving DecidableEq

/-- The scan loop of find_program_header: read entries sequentially
(the read outcome of entry i is reads i), returning on a failed read
with -errno, on a short read with -ENOTSUP, and on the first entry of
the requested type that either was requested with the address wildcard
or contains the requested address.  The out-parameter buffer buf holds
the bytes of the last entry read, also when the scan ends without a
match. -/
def fph_loop (reads : Nat → ReadPH) (ptype address : Nat) :
    ProgramHeaderF → Nat → Nat → FindResult × ProgramHeaderF
  | buf, _, 0 => (.notFound, buf)
  | buf, i, r + 1 =>
    match reads i with
    | .fail e => (.err (-(e : Int)), buf)
    | .short => (.err (-(ENOTSUP : Int)), buf)
    | .ok ph =>
      if ph.ptype = ptype then
        if address = wildcardAddr then (.found ph, ph)
        else if containsAddress ph.vaddr ph.memsz address then (.found ph, ph)
        else fph_loop reads ptype address ph (i + 1) r
      else fph_loop reads ptype address ph (i + 1) r

/-- find_program_header (src/execve/elf.c): reject tables with
phnum >= 0xffff or an unrecognized phentsize as -ENOTSUP before any
read, seek to phoff (failure gives -errno; seekRes = some e injects
errno e), then scan phnum entries.  The initial content of the
out-parameter buffer is buf (an uninitialized local in the C callers);
the second component of the result is its final content. -/
def find_program_header (hdr : ElfHeaderF) (seekRes : Option Nat)
    (reads : Nat → ReadPH) (ptype address : Nat) (buf : ProgramHeaderF) :
    FindResult × ProgramHeaderF :=
  if hdr.phnum ≥ 0xffff then (.err (-(ENOTSUP : Int)), buf)
  else if ¬ knownPhentsize hdr.eclass hdr.phentsize then
    (.err (-(ENOTSUP : Int)), buf)
  else
    match seekRes with
    | some e => (.err (-(e : Int)), buf)
    | none => fph_loop reads ptype address buf 0 hdr.phnum

/-- Outcome of reading one dynamic entry of the per-class entry size:
a decoded entry (through the DYNAMIC_FIELD facade, tag and value) or a
failing read with its errno value.  A short read is not detected by
the C code here, so the decoded-entry case also covers it (the decoded
values are then arbitrary). -/
inductive DynRead where
  | ok (tag : Nat) (val : Nat)
  | fail (errno : Nat)

/-- Subtraction in uint64_t arithmetic, for a < U64. -/
def u64sub (a b : Nat) : Nat := (a + (U64 - b % U64)) % U64

/-- The FOREACH_DYNAMIC_ENTRY pass used for DT_STRTAB in
read_ldso_rpaths: for each index, seek to the entry (failure gives
-errno), read it (a failing read makes the C code return the raw
read(2) return value -1), and stop at the first entry with the
requested tag, yielding its value; yield none when the table is
exhausted. -/
def scan_first_tag (dynSeek : Nat → Option Nat) (dynRead : Nat → DynRead)
    (tag : Nat) : Nat → Nat → Except Int (Option Nat)
  | _, 0 => .ok none
  | i, r + 1 =>
    match dynSeek i with
    | some e => .error (-(e : Int))
    | none =>
      match dynRead i with
      | .fail _ => .error cREAD_FAIL
      | .ok t v => if t = tag then .ok (some v) else
          scan_first_tag dynSeek dynRead tag (i + 1) r

/-- The body executed by read_ldso_rpaths for one RPATH or RUNPATH
entry with value, given the resolved string table file offset as a
uint64_t bit pattern (an off_t value, negative when >= 2^63): fail
with -ENOEXEC when the offset is negative as off_t or when adding the
value would overflow uint64_t, otherwise hand the sum (computed in
uint64_t arithmetic) to add_xpaths. -/
def processPathEntry (f : File) (allocOk : Nat → Bool) (junk : Nat → Nat)
    (fuel : Nat) (strtabOff value ctr : Nat) (acc : Option (List Nat)) :
    AXOut × Option (List Nat) × Nat :=
  if strtabOff ≥ 2 ^ 63 ∨ strtabOff > U64 - 1 - value then
    (.err (-(ENOEXEC : Int)), acc, ctr)
  else add_xpaths f allocOk junk fuel ((strtabOff + value) % U64) ctr acc

/-- Outcome of one FOREACH_DYNAMIC_ENTRY pass over RPATH or RUNPATH
entries: an error with the accumulator and allocation counter at that
point, success with the final accumulator and counter, or divergence
of the add_xpaths fuel model. -/
inductive XLoopOut where
  | err (code : Int) (acc : Option (List Nat)) (ctr : Nat)
  | ok (acc : Option (List Nat)) (ctr : Nat)
  | diverge (acc : Option (List Nat))
deriving DecidableEq

/-- The FOREACH_DYNAMIC_ENTRY pass used for DT_RPATH and DT_RUNPATH in
read_ldso_rpaths: for each index, seek (failure gives -errno) and read
(failure returns the raw -1) the entry; entries with another tag are
skipped; each entry with the requested tag is processed through
processPathEntry, whose error status is returned at once and whose
success threads the updated accumulator and allocation counter. -/
def xpaths_loop (dynSeek : Nat → Option Nat) (dynRead : Nat → DynRead)
    (tag : Nat) (f : File) (allocOk : Nat → Bool) (junk : Nat → Nat)
    (fuel strtabOff : Nat) :
    Nat → Nat → Nat → Option (List Nat) → XLoopOut
  | _, 0, ctr, acc => .ok acc ctr
  | i, r + 1, ctr, acc =>
    match dynSeek i with
    | some e => .err (-(e : Int)) acc ctr
    | none =>
      match dynRead i with
      | .fail _ => .err cREAD_FAIL acc ctr
      | .ok t v =>
        if t = tag then
          match processPathEntry f allocOk junk fuel strtabOff v ctr acc with
          | (.err c, acc2, ctr2) => .err c acc2 ctr2
          | (.diverge, acc2, _) => .diverge acc2
          | (.ok, acc2, ctr2) =>
            xpaths_loop dynSeek dynRead tag f allocOk junk fuel strtabOff
              (i + 1) r ctr2 acc2
        else
          xpaths_loop dynSeek dynRead tag f allocOk junk fuel strtabOff
            (i + 1) r ctr acc

/-- Result of read_ldso_rpaths: the returned status together with the
final contents of the rpaths and runpaths accumulators, or divergence
of the add_xpaths fuel model. -/
inductive RunOut where
  | done (code : Int) (rpaths runpaths : Option (List Nat))
  | diverge
deriving DecidableEq

/-- read_ldso_rpaths (src/execve/elf.c).  Locate the dynamic segment
(the buffer initial content dynInit models the uninitialized local
dynamic_segment); a status <= 0 from the locator is returned as is, so
the not-found status 0 is success with untouched accumulators.  Check
that filesz of the dynamic segment is a multiple of the per-class
dynamic entry size (8 bytes for class 32, 16 for class 64), else
-ENOEXEC.  Scan for the first DT_STRTAB entry; with none found the
initial (uint64_t) -1 survives and the function returns 0.  Locate the
PT_LOAD segment containing the string table address with the
uninitialized local strtab_segment modelled by strtabInit; only a
negative status is returned, so on not-found the code falls through
and computes the string table file offset from the stale buffer
content.  Finally run one pass for DT_RPATH into rpaths and one for
DT_RUNPATH into runpaths. -/
def read_ldso_rpaths (hdr : ElfHeaderF) (phSeek : Option Nat)
    (phReads : Nat → ReadPH) (dynInit strtabInit : ProgramHeaderF)
    (dynSeek : Nat → Option Nat) (dynRead : Nat → DynRead)
    (f : File) (allocOk : Nat → Bool) (junk : Nat → Nat) (fuel : Nat)
    (rpaths runpaths : Option (List Nat)) : RunOut :=
  match find_program_header hdr phSeek phReads PT_DYNAMIC wildcardAddr dynInit with
  | (.err c, _) => .done c rpaths runpaths
  | (.notFound, _) => .done 0 rpaths runpaths
  | (.found dynSeg, _) =>
    let entsize := if hdr.eclass = 1 then 8 else 16
    if dynSeg.filesz % entsize ≠ 0 then .done (-(ENOEXEC : Int)) rpaths runpaths
    else
      let count := dynSeg.filesz / entsize
      match scan_first_tag dynSeek dynRead DT_STRTAB 0 count with
      | .error c => .done c rpaths runpaths
      | .ok found? =>
        let strtabAddress := match found? with
          | none => wildcardAddr
          | some v => v % U64
        if strtabAddress = wildcardAddr then .done 0 rpaths runpaths
        else
          match find_program_header hdr phSeek phReads PT_LOAD strtabAddress
              strtabInit with
          | (.err c, _) => .done c rpaths runpaths
          | (_, buf) =>
            let strtabOff := (buf.offset + u64sub strtabAddress buf.vaddr) % U64
            match xpaths_loop dynSeek dynRead DT_RPATH f allocOk junk fuel
                strtabOff 0 count 0 rpaths with
            | .err c rp _ => .done c rp runpaths
            | .diverge _ => .diverge
            | .ok rp ctr =>
              match xpaths_loop dynSeek dynRead DT_RUNPATH f allocOk junk fuel
                  strtabOff 0 count ctr runpaths with
              | .err c rn _ => .done c rp rn
              | .diverge _ => .diverge
              | .ok rn _ => .done 0 rp rn

/-- Size in bytes of the ElfHeader union read by open_elf.  Modelled
from the spec: the union of the 32- and 64-bit header structures from
execve/elf.h, whose size is the 64-bit header size, 64 bytes. -/
def elfHeaderSize : Nat := 64

/-- Modelled from the spec: IS_CLASS32 from execve/elf.h tests whether
the class byte (e_ident index 4) holds the 32-bit marker ELFCLASS32 = 1. -/
def isClass32 (h : List Nat) : Bool := h.getD 4 0 == 1

/-- Modelled from the spec: IS_CLASS64 from execve/elf.h tests whether
the class byte (e_ident index 4) holds the 64-bit marker ELFCLASS64 = 2. -/
def isClass64 (h : List Nat) : Bool := h.getD 4 0 == 2

/-- Result of open_elf: failure of open(2) itself (no descriptor was
created), a post-open failure (fdClosed records that close(2) ran on
the descriptor before returning), or success handing the caller the
open descriptor and the header bytes. -/
inductive OpenOut where
  | failedOpen (code : Int)
  | err (code : Int) (fdClosed : Bool)
  | ok (header : List Nat)
deriving DecidableEq

/-- open_elf (src/execve/elf.c): open the file read-only (openRes =
some e injects an open failure with errno e), read the header-sized
number of bytes (readRes is the outcome of that read: an errno value
or the bytes obtained), and fail with -ENOEXEC on a short read, a bad
magic, or an unknown class byte.  Every post-open failure flows
through the single exit that closes the descriptor; on success the
caller owns the open descriptor and receives the header. -/
def open_elf (openRes : Option Nat) (readRes : Except Nat (List Nat)) :
    OpenOut :=
  match openRes with
  | some e => .failedOpen (-(e : Int))
  | none =>
    match readRes with
    | .error e => .err (-(e : Int)) true
    | .ok bytes =>
      if bytes.length < elfHeaderSize
          ∨ bytes.getD 0 0 ≠ 0x7f ∨ bytes.getD 1 0 ≠ 0x45
          ∨ bytes.getD 2 0 ≠ 0x4c ∨ bytes.getD 3 0 ≠ 0x46 then
        .err (-(ENOEXEC : Int)) true
      else if ¬ (isClass32 bytes ∨ isClass64 bytes) then
        .err (-(ENOEXEC : Int)) true
      else .ok bytes

/-- Modelled from the spec: the class-generic machine field accessor
ELF_FIELD(header, machine).  In both the 32- and the 64-bit layout the
e_machine field is the 16-bit little-endian value at byte offset 18. -/
def machineOf (h : List Nat) : Nat := h.getD 18 0 + 256 * h.getD 19 0

/-- The machine comparison loop of is_host_elf: walk the
HOST_ELF_MACHINE list up to its zero sentinel, returning true on the
first element equal to the machine value of the header. -/
def scanMachines : List Nat → Nat → Bool
  | [], _ => false
  | x :: xs, m => if x = 0 then false else if x = m then true else
      scanMachines xs m

/-- is_host_elf (src/execve/elf.c): with the memoized force-foreign
environment toggle set, or without an active emulation (qemu) for the
session, return false at once.  Otherwise open the file through
open_elf (any failure gives false, and the descriptor is closed right
after the header is read), then scan the host machine list for the
machine field of the header. -/
def is_host_elf (forceForeign qemu : Bool) (openRes : Option Nat)
    (readRes : Except Nat (List Nat)) (hostMachines : List Nat) : Bool :=
  if forceForeign || !qemu then false
  else
    match open_elf openRes readRes with
    | .ok header => scanMachines hostMachines (machineOf header)
    | _ => false

/-- C1: an image whose dynamic section names a string table at virtual
address 8, while no loadable segment contains that address (the only
program header is the dynamic segment itself, so the PT_LOAD search
returns not-found and leaves the last entry read in the buffer), is
not rejected: read_ldso_rpaths returns success 0 and extracts a path
from the file offset 108 computed out of the stale buffer content,
instead of failing with -ENOEXEC. -/
theorem c1_unresolved_strtab_not_rejected :
    read_ldso_rpaths ⟨2, 0, 64, 1, 56⟩ none
      (fun _ => .ok ⟨2, 0, 0x1000, 100, 32⟩)
      ⟨0, 0, 0, 0, 0⟩ ⟨9, 9, 9, 9, 9⟩
      (fun _ => none)
      (fun i => if i = 0 then .ok 5 8 else .ok 15 0)
      ⟨List.replicate 108 0 ++ [47, 98, 111, 103, 117, 115, 0],
        fun _ => none, fun _ => none⟩
      (fun _ => true) (fun _ => 0xAA) 2 none none
    = .done 0 (some [47, 98, 111, 103, 117, 115]) none
    ∧ (find_program_header ⟨2, 0, 64, 1, 56⟩ none
        (fun _ => .ok ⟨2, 0, 0x1000, 100, 32⟩) PT_LOAD 8
        ⟨9, 9, 9, 9, 9⟩).1 = .notFound := by
  constructor
  · decide
  · decide

/-- C2: when a read(2) call fails with errno 5 (EIO) inside the path
list extraction, add_xpaths returns the raw read return value -1, and
when it fails inside the dynamic entry scan, read_ldso_rpaths likewise
returns -1; neither result equals -5, so the underlying error code is
not propagated. -/
theorem c2_read_failure_code_not_errno :
    add_xpaths ⟨[], fun _ => some 5, fun _ => none⟩
      (fun _ => true) (fun _ => 0xAA) 2 50 0 none
    = (.err (-1), none, 1)
    ∧ read_ldso_rpaths ⟨2, 0, 64, 1, 56⟩ none
        (fun _ => .ok ⟨2, 0, 0x1000, 100, 16⟩)
        ⟨0, 0, 0, 0, 0⟩ ⟨0, 0, 0, 0, 0⟩
        (fun _ => none) (fun _ => .fail 5)
        ⟨[], fun _ => none, fun _ => none⟩
        (fun _ => true) (fun _ => 0xAA) 2 none none
      = .done (-1) none none
    ∧ (-1 : Int) ≠ -5 := by
  refine ⟨by decide, by decide, by decide⟩

/-- C10: add_xpaths is atomic with respect to its accumulator: every
error return leaves the accumulator exactly as it was before the
call. -/
theorem c10_add_xpaths_error_leaves_accumulator
    (f : File) (allocOk : Nat → Bool) (junk : Nat → Nat)
    (fuel offset ctr : Nat) (xpaths : Option (List Nat)) (c : Int)
    (acc : Option (List Nat)) (ctr2 : Nat)
    (h : add_xpaths f allocOk junk fuel offset ctr xpaths
      = (.err c, acc, ctr2)) :
    acc = xpaths := by
  unfold add_xpaths at h
  cases hs : f.seekErr offset with
  | some e => rw [hs] at h; simp_all
  | none =>
    rw [hs] at h
    cases hl : ax_loop f allocOk junk fuel offset ctr 0 [] with
    | diverge => rw [hl] at h; simp_all
    | err c3 ctr3 => rw [hl] at h; simp_all
    | ok text ctr3 =>
      rw [hl] at h
      cases xpaths with
      | none => simp only [merge_xpaths] at h; split at h <;> simp_all
      | some s => simp only [merge_xpaths] at h; split at h <;> simp_all

/-- Witness for C10 at a concrete input: a seek failing with errno 7
makes add_xpaths return an error and leave the accumulator [1]. -/
theorem c10_witness :
    add_xpaths ⟨[], fun _ => none, fun _ => some 7⟩ (fun _ => true)
      (fun _ => 0) 1 3 0 (some [1]) = (.err (-7), some [1], 0)
    ∧ some [1] = some [1] := by
  refine ⟨by decide, ?_⟩
  exact c10_add_xpaths_error_leaves_accumulator
    ⟨[], fun _ => none, fun _ => some 7⟩ (fun _ => true) (fun _ => 0)
    1 3 0 (some [1]) (-7) (some [1]) 0 (by decide)

/-- C3: the containment test of find_program_header holds exactly when,
in exact arithmetic, the segment is non-empty and vaddr + memsz does
not wrap uint64_t and vaddr <= address <= vaddr + memsz; both endpoints
match for vaddr = 0x1000, memsz = 0x2000 while 0x3001 does not, a
segment with memsz = 0 matches no address, and on a one-entry table of
the requested type find_program_header reports found exactly under this
test. -/
theorem c3_containment (v m a : Nat) (hv : v < U64) (hm : m < U64) :
    (containsAddress v m a = true ↔
      (v < v + m ∧ v + m < U64 ∧ v ≤ a ∧ a ≤ v + m))
    ∧ containsAddress 0x1000 0x2000 0x1000 = true
    ∧ containsAddress 0x1000 0x2000 0x3000 = true
    ∧ containsAddress 0x1000 0x2000 0x3001 = false
    ∧ containsAddress v 0 a = false
    ∧ (∀ (hdr : ElfHeaderF) (ph buf : ProgramHeaderF) (t : Nat),
        hdr.phnum = 1 → knownPhentsize hdr.eclass hdr.phentsize = true →
        ph.ptype = t → a ≠ wildcardAddr →
        ((find_program_header hdr none (fun _ => .ok ph) t a buf).1
            = .found ph
          ↔ containsAddress ph.vaddr ph.memsz a = true)) := by
  refine ⟨?_, by decide, by decide, by decide, ?_, ?_⟩
  · simp only [containsAddress, Bool.and_eq_true, decide_eq_true_eq, U64] at *
    omega
  · have h0 : v % U64 = v := Nat.mod_eq_of_lt hv
    simp [containsAddress, h0]
  · intro hdr ph buf t h1 h2 h3 h4
    unfold find_program_header
    rw [h1]
    simp only [h2, ge_iff_le, Nat.reduceLeDiff, not_true_eq_false,
      if_false, Bool.not_true, ite_false]
    unfold fph_loop
    simp only [h3, if_pos rfl, if_neg h4]
    cases hc : containsAddress ph.vaddr ph.memsz a with
    | true => simp
    | false =>
      simp only [Bool.false_eq_true, if_false]
      unfold fph_loop
      simp

/-- Witness for C3 at concrete inputs: 0x1000 < 2^64, 0x2000 < 2^64,
and the segment vaddr = 0x1000, memsz = 0x2000 contains the endpoint
address 0x3000. -/
theorem c3_witness :
    0x1000 < U64 ∧ 0x2000 < U64
    ∧ containsAddress 0x1000 0x2000 0x3000 = true := by
  refine ⟨by decide, by decide, ?_⟩
  exact (c3_containment 0x1000 0x2000 0x3000 (by decide) (by decide)).2.2.1

/-- C4: for an RPATH or RUNPATH entry, whenever the resolved string
table file offset exceeds UINT64_MAX - value the per-entry processing
fails with -ENOEXEC, and whenever the guard passes the Path-List
Extractor is invoked at exactly the non-wrapping sum
strtabOff + value, which stays below 2^64. -/
theorem c4_offset_overflow_guard (f : File) (allocOk : Nat → Bool)
    (junk : Nat → Nat) (fuel strtabOff value ctr : Nat)
    (acc : Option (List Nat)) (hv : value < U64) :
    (strtabOff > U64 - 1 - value →
      processPathEntry f allocOk junk fuel strtabOff value ctr acc
        = (.err (-(ENOEXEC : Int)), acc, ctr))
    ∧ (strtabOff < 2 ^ 63 → strtabOff ≤ U64 - 1 - value →
      processPathEntry f allocOk junk fuel strtabOff value ctr acc
        = add_xpaths f allocOk junk fuel (strtabOff + value) ctr acc
      ∧ strtabOff + value < U64) := by
  constructor
  · intro hover
    unfold processPathEntry
    rw [if_pos (Or.inr hover)]
  · intro hneg hfit
    have hlt : strtabOff + value < U64 := by
      simp only [U64] at *; omega
    refine ⟨?_, hlt⟩
    unfold processPathEntry
    rw [if_neg ?_, Nat.mod_eq_of_lt hlt]
    push_neg
    exact ⟨hneg, hfit⟩

/-- Witness for C4 at concrete inputs: with value 1 < 2^64, the offset
2^64 - 1 overflows the guard and yields -ENOEXEC, and the offset 100
with value 8 passes the guard and reaches the extractor at offset
108. -/
theorem c4_witness :
    (1 : Nat) < U64 ∧ U64 - 1 > U64 - 1 - 1
    ∧ processPathEntry ⟨[], fun _ => none, fun _ => none⟩ (fun _ => true)
        (fun _ => 0) 1 (U64 - 1) 1 0 none
      = (.err (-(ENOEXEC : Int)), none, 0)
    ∧ processPathEntry ⟨[], fun _ => none, fun _ => none⟩ (fun _ => true)
        (fun _ => 0) 1 100 8 0 none
      = add_xpaths ⟨[], fun _ => none, fun _ => none⟩ (fun _ => true)
          (fun _ => 0) 1 108 0 none := by
  refine ⟨by decide, by decide, ?_, ?_⟩
  · exact (c4_offset_overflow_guard ⟨[], fun _ => none, fun _ => none⟩
      (fun _ => true) (fun _ => 0) 1 (U64 - 1) 1 0 none (by decide)).1
      (by decide)
  · exact ((c4_offset_overflow_guard ⟨[], fun _ => none, fun _ => none⟩
      (fun _ => true) (fun _ => 0) 1 100 8 0 none (by decide)).2
      (by decide) (by decide)).1

/-- With the address wildcard and a table whose entries all read
successfully, the scan of find_program_header returns exactly the
first entry of the requested type, in table order, and not-found when
no entry has that type. -/
theorem fph_loop_find_first (t : Nat) (reads : Nat → ReadPH)
    (d : ProgramHeaderF) :
    ∀ (phs : List ProgramHeaderF) (k : Nat) (buf : ProgramHeaderF),
    (∀ j, j < phs.length → reads (k + j) = .ok (phs.getD j d)) →
    (fph_loop reads t wildcardAddr buf k phs.length).1
      = match phs.find? (fun p => p.ptype == t) with
        | some ph => .found ph
        | none => .notFound := by
  intro phs
  induction phs with
  | nil => intro k buf h; rfl
  | cons ph rest ih =>
    intro k buf h
    have h0 : reads k = .ok ph := by
      have := h 0 (by simp)
      simpa using this
    by_cases hb : ph.ptype = t
    · have hfind : (ph :: rest).find? (fun p => p.ptype == t) = some ph := by
        simp [List.find?_cons, hb]
      rw [hfind]
      show (fph_loop reads t wildcardAddr buf k (rest.length + 1)).1 = _
      unfold fph_loop
      rw [h0]
      simp [hb]
    · rw [List.find?_cons_of_neg _ (by simp [hb])]
      show (fph_loop reads t wildcardAddr buf k (rest.length + 1)).1 = _
      unfold fph_loop
      rw [h0]
      simp only [hb, if_false, ite_false]
      apply ih (k + 1) ph
      intro j hj
      have := h (j + 1) (by simpa using Nat.succ_lt_succ hj)
      have harg : k + (j + 1) = k + 1 + j := by omega
      rw [harg] at this
      simpa using this

/-- C5: find_program_header returns -ENOTSUP without scanning when
phnum is at least 0xFFFF or when phentsize is not a known size for the
class of the image; with the address wildcard and a fully readable
table it returns found with the first entry of the requested type in
table order, and the non-error result not-found (distinct from every
error) when no such entry exists; a short program header read yields
-ENOTSUP and a failing read yields -errno. -/
theorem c5_find_program_header_contract
    (hdr : ElfHeaderF) (seekRes : Option Nat) (reads : Nat → ReadPH)
    (t : Nat) (buf d : ProgramHeaderF) (phs : List ProgramHeaderF)
    (e : Nat) :
    (hdr.phnum ≥ 0xffff →
      find_program_header hdr seekRes reads t wildcardAddr buf
        = (.err (-(ENOTSUP : Int)), buf))
    ∧ (hdr.phnum < 0xffff →
      knownPhentsize hdr.eclass hdr.phentsize = false →
      find_program_header hdr seekRes reads t wildcardAddr buf
        = (.err (-(ENOTSUP : Int)), buf))
    ∧ (hdr.phnum < 0xffff →
      knownPhentsize hdr.eclass hdr.phentsize = true →
      hdr.phnum = phs.length →
      (∀ j, j < phs.length → reads j = .ok (phs.getD j d)) →
      ((∀ ph, phs.find? (fun p => p.ptype == t) = some ph →
          (find_program_header hdr none reads t wildcardAddr buf).1
            = .found ph)
        ∧ (phs.find? (fun p => p.ptype == t) = none →
          (find_program_header hdr none reads t wildcardAddr buf).1
            = .notFound)))
    ∧ (∀ c : Int, FindResult.notFound ≠ FindResult.err c)
    ∧ (hdr.phnum < 0xffff →
      knownPhentsize hdr.eclass hdr.phentsize = true →
      1 ≤ hdr.phnum → reads 0 = .short →
      (find_program_header hdr none reads t wildcardAddr buf).1
        = .err (-(ENOTSUP : Int)))
    ∧ (hdr.phnum < 0xffff →
      knownPhentsize hdr.eclass hdr.phentsize = true →
      1 ≤ hdr.phnum → reads 0 = .fail e →
      (find_program_header hdr none reads t wildcardAddr buf).1
        = .err (-(e : Int))) := by
  refine ⟨?_, ?_, ?_, ?_, ?_, ?_⟩
  · intro hbig
    unfold find_program_header
    rw [if_pos hbig]
  · intro hsmall hk
    unfold find_program_header
    rw [if_neg (by omega), if_pos (by simp [hk])]
  · intro hsmall hk hlen hreads
    have hmain := fph_loop_find_first t reads d phs 0 buf
      (by intro j hj; simpa using hreads j hj)
    have hred : (find_program_header hdr none reads t wildcardAddr buf).1
        = (fph_loop reads t wildcardAddr buf 0 hdr.phnum).1 := by
      unfold find_program_header
      rw [if_neg (by omega), if_neg (by simp [hk])]
    constructor
    · intro ph hfind
      rw [hred, hlen, hmain, hfind]
    · intro hfind
      rw [hred, hlen, hmain, hfind]
  · intro c
    simp
  · intro hsmall hk hone hread0
    obtain ⟨r, hr⟩ : ∃ r, hdr.phnum = r + 1 := ⟨hdr.phnum - 1, by omega⟩
    unfold find_program_header
    rw [if_neg (by omega), if_neg (by simp [hk]), hr]
    unfold fph_loop
    rw [hread0]
  · intro hsmall hk hone hread0
    obtain ⟨r, hr⟩ : ∃ r, hdr.phnum = r + 1 := ⟨hdr.phnum - 1, by omega⟩
    unfold find_program_header
    rw [if_neg (by omega), if_neg (by simp [hk]), hr]
    unfold fph_loop
    rw [hread0]

/-- Witness for C5 at concrete inputs: a table with phnum = 0xFFFF is
rejected with -ENOTSUP, a one-entry table of the requested type is
found with the address wildcard, and a one-entry table of another type
gives not-found. -/
theorem c5_witness :
    find_program_header ⟨2, 0, 64, 0xffff, 56⟩ none
      (fun _ => .ok ⟨2, 0, 16, 100, 32⟩) 2 wildcardAddr ⟨0, 0, 0, 0, 0⟩
      = (.err (-(ENOTSUP : Int)), ⟨0, 0, 0, 0, 0⟩)
    ∧ (find_program_header ⟨2, 0, 64, 1, 56⟩ none
        (fun _ => .ok ⟨2, 0, 16, 100, 32⟩) 2 wildcardAddr
        ⟨0, 0, 0, 0, 0⟩).1 = .found ⟨2, 0, 16, 100, 32⟩
    ∧ (find_program_header ⟨2, 0, 64, 1, 56⟩ none
        (fun _ => .ok ⟨1, 0, 16, 100, 32⟩) 2 wildcardAddr
        ⟨0, 0, 0, 0, 0⟩).1 = .notFound := by
  refine ⟨?_, ?_, ?_⟩
  · exact (c5_find_program_header_contract ⟨2, 0, 64, 0xffff, 56⟩ none
      (fun _ => .ok ⟨2, 0, 16, 100, 32⟩) 2 ⟨0, 0, 0, 0, 0⟩ ⟨0, 0, 0, 0, 0⟩
      [] 0).1 (by decide)
  · exact ((c5_find_program_header_contract ⟨2, 0, 64, 1, 56⟩ none
      (fun _ => .ok ⟨2, 0, 16, 100, 32⟩) 2 ⟨0, 0, 0, 0, 0⟩ ⟨0, 0, 0, 0, 0⟩
      [⟨2, 0, 16, 100, 32⟩] 0).2.2.1 (by decide) (by decide) (by decide)
      (by intro j hj
          simp only [List.length_singleton] at hj
          have hj0 : j = 0 := by omega
          subst hj0; rfl)).1 ⟨2, 0, 16, 100, 32⟩ (by decide)
  · exact ((c5_find_program_header_contract ⟨2, 0, 64, 1, 56⟩ none
      (fun _ => .ok ⟨1, 0, 16, 100, 32⟩) 2 ⟨0, 0, 0, 0, 0⟩ ⟨0, 0, 0, 0, 0⟩
      [⟨1, 0, 16, 100, 32⟩] 0).2.2.1 (by decide) (by decide) (by decide)
      (by intro j hj
          simp only [List.length_singleton] at hj
          have hj0 : j = 0 := by omega
          subst hj0; rfl)).2 (by decide)

/-- C6: open_elf fails with -ENOEXEC when fewer than header-size bytes
are read, when the first four bytes are not 0x7F E L F, or when the
class byte is neither the 32- nor the 64-bit marker; every post-open
failure closes the descriptor before returning; on success the open
descriptor and the header bytes are handed to the caller. -/
theorem c6_open_elf_contract (openRes : Option Nat)
    (readRes : Except Nat (List Nat)) (bytes : List Nat) :
    (readRes = .ok bytes →
      (bytes.length < elfHeaderSize ∨ bytes.getD 0 0 ≠ 0x7f
        ∨ bytes.getD 1 0 ≠ 0x45 ∨ bytes.getD 2 0 ≠ 0x4c
        ∨ bytes.getD 3 0 ≠ 0x46
        ∨ (isClass32 bytes = false ∧ isClass64 bytes = false)) →
      open_elf none readRes = .err (-(ENOEXEC : Int)) true)
    ∧ (∀ (c : Int) (b : Bool), open_elf openRes readRes = .err c b →
      b = true)
    ∧ (readRes = .ok bytes → elfHeaderSize ≤ bytes.length →
      bytes.getD 0 0 = 0x7f → bytes.getD 1 0 = 0x45 →
      bytes.getD 2 0 = 0x4c → bytes.getD 3 0 = 0x46 →
      (isClass32 bytes = true ∨ isClass64 bytes = true) →
      open_elf none readRes = .ok bytes) := by
  refine ⟨?_, ?_, ?_⟩
  · intro hrr hbad
    subst hrr
    by_cases hfirst : (bytes.length < elfHeaderSize ∨ bytes.getD 0 0 ≠ 0x7f
        ∨ bytes.getD 1 0 ≠ 0x45 ∨ bytes.getD 2 0 ≠ 0x4c
        ∨ bytes.getD 3 0 ≠ 0x46)
    · simp only [open_elf]
      rw [if_pos hfirst]
    · simp only [open_elf]
      rw [if_neg hfirst]
      push_neg at hfirst
      have hcls : ¬ (isClass32 bytes = true ∨ isClass64 bytes = true) := by
        rcases hbad with h | h | h | h | h | ⟨h32, h64⟩
        · exact absurd h (by omega)
        · exact absurd hfirst.2.1 h
        · exact absurd hfirst.2.2.1 h
        · exact absurd hfirst.2.2.2.1 h
        · exact absurd hfirst.2.2.2.2 h
        · simp [h32, h64]
      rw [if_pos hcls]
  · intro c b h
    cases openRes with
    | some e => simp [open_elf] at h
    | none =>
      cases readRes with
      | error e =>
        simp only [open_elf, OpenOut.err.injEq] at h
        exact h.2.symm
      | ok bs =>
        simp only [open_elf] at h
        split at h
        · cases h; rfl
        · split at h
          · cases h; rfl
          · simp at h
  · intro hrr hlen h0 h1 h2 h3 hcls
    subst hrr
    simp only [open_elf]
    rw [if_neg (by push_neg; exact ⟨by omega, h0, h1, h2, h3⟩),
      if_neg (not_not_intro hcls)]

/-- Witness for C6 at concrete inputs: a file starting with bytes
1, 2, 3 is rejected with -ENOEXEC and the descriptor is closed, and a
well-formed 64 byte class-64 header is returned to the caller with the
descriptor open. -/
theorem c6_witness :
    open_elf none (.ok [1, 2, 3]) = .err (-(ENOEXEC : Int)) true
    ∧ open_elf none (.ok ([0x7f, 0x45, 0x4c, 0x46, 2] ++ List.replicate 59 0))
      = .ok ([0x7f, 0x45, 0x4c, 0x46, 2] ++ List.replicate 59 0) := by
  constructor
  · exact (c6_open_elf_contract none (.ok [1, 2, 3]) [1, 2, 3]).1 rfl
      (Or.inr (Or.inl (by decide)))
  · exact (c6_open_elf_contract none
      (.ok ([0x7f, 0x45, 0x4c, 0x46, 2] ++ List.replicate 59 0))
      ([0x7f, 0x45, 0x4c, 0x46, 2] ++ List.replicate 59 0)).2.2 rfl
      (by decide) (by decide) (by decide) (by decide) (by decide)
      (Or.inr (by decide))

/-- C7: the merge step of add_xpaths makes the extracted text the
entire accumulator content when the accumulator is empty and otherwise
appends a colon followed by the text, never truncating earlier
content; an image with two RUNPATH entries naming /usr/lib and /lib in
that table order yields the runpaths accumulator /usr/lib:/lib with
every matching entry processed in encounter order. -/
theorem c7_accumulator_merge (allocOk : Nat → Bool) (ctr : Nat)
    (s text : List Nat) (h : allocOk ctr = true) :
    merge_xpaths allocOk ctr none text = (.ok, some text, ctr + 1)
    ∧ merge_xpaths allocOk ctr (some s) text
      = (.ok, some (s ++ 58 :: text), ctr + 1)
    ∧ read_ldso_rpaths ⟨2, 0, 64, 2, 56⟩ none
        (fun i => if i = 0 then .ok ⟨1, 0, 0x1000, 0, 0x1000⟩
          else .ok ⟨2, 0, 0x1000, 500, 48⟩)
        ⟨0, 0, 0, 0, 0⟩ ⟨0, 0, 0, 0, 0⟩
        (fun _ => none)
        (fun i => if i = 0 then .ok 5 200 else if i = 1 then .ok 29 0
          else .ok 29 9)
        ⟨List.replicate 200 0 ++
          [47, 117, 115, 114, 47, 108, 105, 98, 0, 47, 108, 105, 98, 0],
          fun _ => none, fun _ => none⟩
        (fun _ => true) (fun _ => 0xAA) 2 none none
      = .done 0 none
          (some [47, 117, 115, 114, 47, 108, 105, 98, 58, 47, 108, 105, 98])
      := by
  refine ⟨by simp [merge_xpaths, h], by simp [merge_xpaths, h], by decide⟩

/-- Witness for C7 at concrete inputs: with a succeeding allocation,
merging the text /lib into the accumulator /usr/lib appends a colon
and the text. -/
theorem c7_witness :
    (fun _ => true : Nat → Bool) 0 = true
    ∧ merge_xpaths (fun _ => true) 0 (some [47, 117, 115, 114])
        [47, 108, 105, 98]
      = (.ok, some [47, 117, 115, 114, 58, 47, 108, 105, 98], 1) := by
  refine ⟨rfl, ?_⟩
  exact (c7_accumulator_merge (fun _ => true) 0 [47, 117, 115, 114]
    [47, 108, 105, 98] rfl).2.1

/-- C8: is_host_elf returns true exactly when the force-foreign toggle
is unset, emulation is active for the session, and the file opens and
parses as an ELF image whose machine field appears in the host
accepted-machine list scanned up to the zero sentinel; in every other
case, forced-foreign and unparseable files included, the Bool-valued
function returns false. -/
theorem c8_is_host_elf_iff (forceForeign qemu : Bool) (openRes : Option Nat)
    (readRes : Except Nat (List Nat)) (hostMachines : List Nat) :
    is_host_elf forceForeign qemu openRes readRes hostMachines = true
    ↔ (forceForeign = false ∧ qemu = true
      ∧ ∃ h, open_elf openRes readRes = .ok h
          ∧ scanMachines hostMachines (machineOf h) = true) := by
  unfold is_host_elf
  cases forceForeign with
  | true => simp
  | false =>
    cases qemu with
    | false => simp
    | true =>
      cases hop : open_elf openRes readRes with
      | ok h => simp [hop]
      | err c b => simp [hop]
      | failedOpen c => simp [hop]

/-- Witness for C8 at concrete inputs: a host-machine ELF header with
machine code 40 in the accepted list is classified as host, and the
same file with the force-foreign toggle set is not. -/
theorem c8_witness :
    is_host_elf false true none
      (.ok ([0x7f, 0x45, 0x4c, 0x46, 2] ++ List.replicate 13 0 ++
        [40, 0] ++ List.replicate 44 0)) [40, 0] = true
    ∧ is_host_elf true true none
      (.ok ([0x7f, 0x45, 0x4c, 0x46, 2] ++ List.replicate 13 0 ++
        [40, 0] ++ List.replicate 44 0)) [40, 0] = false := by
  constructor
  · exact (c8_is_host_elf_iff false true none
      (.ok ([0x7f, 0x45, 0x4c, 0x46, 2] ++ List.replicate 13 0 ++
        [40, 0] ++ List.replicate 44 0)) [40, 0]).mpr
      ⟨rfl, rfl, [0x7f, 0x45, 0x4c, 0x46, 2] ++ List.replicate 13 0 ++
        [40, 0] ++ List.replicate 44 0, by decide, by decide⟩
  · decide

/-- When no entry of the dynamic table carries the requested tag and
every seek and read succeeds, the tag scan of read_ldso_rpaths yields
none without error. -/
theorem scan_first_tag_none_of_no_tag (dynSeek : Nat → Option Nat)
    (dynRead : Nat → DynRead) (tag : Nat) :
    ∀ (r k : Nat),
    (∀ j, j < r → dynSeek (k + j) = none ∧
      ∃ t v, dynRead (k + j) = .ok t v ∧ t ≠ tag) →
    scan_first_tag dynSeek dynRead tag k r = .ok none := by
  intro r
  induction r with
  | zero => intro k h; rfl
  | succ n ih =>
    intro k h
    have h0 := h 0 (Nat.succ_pos n)
    rw [Nat.add_zero] at h0
    obtain ⟨hseek, t, v, hread, ht⟩ := h0
    unfold scan_first_tag
    simp only [hseek, hread]
    rw [if_neg ht]
    apply ih (k + 1)
    intro j hj
    have := h (j + 1) (by omega)
    have harg : k + (j + 1) = k + 1 + j := by omega
    rw [harg] at this
    exact this

/-- C9: read_ldso_rpaths returns success 0 with both accumulators left
untouched when the image has no dynamic segment, and likewise when the
dynamic section (of well-formed size, with all entries readable)
contains no DT_STRTAB entry; neither condition is an error. -/
theorem c9_empty_results (hdr : ElfHeaderF) (phSeek : Option Nat)
    (phReads : Nat → ReadPH) (dynInit strtabInit : ProgramHeaderF)
    (dynSeek : Nat → Option Nat) (dynRead : Nat → DynRead) (f : File)
    (allocOk : Nat → Bool) (junk : Nat → Nat) (fuel : Nat)
    (rpaths runpaths : Option (List Nat)) (seg b : ProgramHeaderF) :
    ((find_program_header hdr phSeek phReads PT_DYNAMIC wildcardAddr
        dynInit).1 = .notFound →
      read_ldso_rpaths hdr phSeek phReads dynInit strtabInit dynSeek dynRead
        f allocOk junk fuel rpaths runpaths = .done 0 rpaths runpaths)
    ∧ (find_program_header hdr phSeek phReads PT_DYNAMIC wildcardAddr dynInit
        = (.found seg, b) →
      seg.filesz % (if hdr.eclass = 1 then 8 else 16) = 0 →
      (∀ j, j < seg.filesz / (if hdr.eclass = 1 then 8 else 16) →
        dynSeek j = none ∧ ∃ t v, dynRead j = .ok t v ∧ t ≠ DT_STRTAB) →
      read_ldso_rpaths hdr phSeek phReads dynInit strtabInit dynSeek dynRead
        f allocOk junk fuel rpaths runpaths = .done 0 rpaths runpaths) := by
  constructor
  · intro hnf
    unfold read_ldso_rpaths
    rcases hfp : find_program_header hdr phSeek phReads PT_DYNAMIC
      wildcardAddr dynInit with ⟨res, bb⟩
    rw [hfp] at hnf
    simp only at hnf
    cases res with
    | err c => exact absurd hnf (by simp)
    | notFound => rfl
    | found ph => exact absurd hnf (by simp)
  · intro hfp hmod hscan
    unfold read_ldso_rpaths
    rw [hfp]
    dsimp only
    rw [if_neg (not_not_intro hmod)]
    rw [scan_first_tag_none_of_no_tag dynSeek dynRead DT_STRTAB _ 0
      (by intro j hj; rw [Nat.zero_add]; exact hscan j hj)]
    dsimp only
    rw [if_pos rfl]

/-- Witness for C9 at concrete inputs: a dynamic segment of one entry
whose tag 6 is not DT_STRTAB gives success 0 with both accumulators
still empty. -/
theorem c9_witness :
    find_program_header ⟨2, 0, 64, 1, 56⟩ none
      (fun _ => .ok ⟨2, 0, 0x1000, 100, 16⟩) PT_DYNAMIC wildcardAddr
      ⟨0, 0, 0, 0, 0⟩
      = (.found ⟨2, 0, 0x1000, 100, 16⟩, ⟨2, 0, 0x1000, 100, 16⟩)
    ∧ read_ldso_rpaths ⟨2, 0, 64, 1, 56⟩ none
        (fun _ => .ok ⟨2, 0, 0x1000, 100, 16⟩)
        ⟨0, 0, 0, 0, 0⟩ ⟨0, 0, 0, 0, 0⟩
        (fun _ => none) (fun _ => .ok 6 0)
        ⟨[], fun _ => none, fun _ => none⟩
        (fun _ => true) (fun _ => 0) 1 none none
      = .done 0 none none := by
  refine ⟨by decide, ?_⟩
  exact (c9_empty_results ⟨2, 0, 64, 1, 56⟩ none
    (fun _ => .ok ⟨2, 0, 0x1000, 100, 16⟩) ⟨0, 0, 0, 0, 0⟩ ⟨0, 0, 0, 0, 0⟩
    (fun _ => none) (fun _ => .ok 6 0) ⟨[], fun _ => none, fun _ => none⟩
    (fun _ => true) (fun _ => 0) 1 none none
    ⟨2, 0, 0x1000, 100, 16⟩ ⟨2, 0, 0x1000, 100, 16⟩).2 (by decide)
    (by decide) (by intro j hj; exact ⟨rfl, 6, 0, rfl, by decide⟩)
